import Mathlib

/-!
Shallow embedding of `src/frontend/app.py` (sider-prediction): the pairwise
drug-combination risk engine.  The pandas data frames are modelled as lists of
rows, Python floats as rationals, and Python exceptions as `Option`/`Except`.
The severity model is an external collaborator and enters as a parameter
`predict : List ℚ → Option ℚ` together with its class count.
-/

/-- One row of the side-effects table (`meddra_all_se.tsv`), restricted to the
columns the scoring core reads. -/
structure SERow where
  drug_id : String
  side_effect_name : String
deriving DecidableEq

/-- One row of the drug-names table (`drug_names.tsv`). -/
structure NameRow where
  drug_id : String
  drug_name : String
deriving DecidableEq

/-- One record appended per candidate by `predict_drug_combinations`. -/
structure Combo where
  drug : String
  risk_score : ℚ
  severity_score : ℚ
  combined_score : ℚ
  common_side_effects : Finset String
deriving DecidableEq

/-- `pandas.Series.unique().tolist()`: distinct values in order of first
occurrence. -/
def pdUnique (l : List String) : List String :=
  l.foldl (fun acc x => if x ∈ acc then acc else acc ++ [x]) []

/-- `get_drug_side_effects`: boolean-mask lookup of the drug id by name, then
of the side-effect rows by id.  `.values[0]` on an empty selection raises
`IndexError`, modelled as `none`; with several matching rows it takes the
first one. -/
def get_drug_side_effects (drug_name : String) (side_effects_df : List SERow)
    (drug_names_df : List NameRow) : Option (List String) :=
  match (drug_names_df.filter (fun r => r.drug_name = drug_name)).head? with
  | none => none
  | some row =>
      some ((side_effects_df.filter (fun s => s.drug_id = row.drug_id)).map
        SERow.side_effect_name)

/-- One iteration of the loop body of `create_feature_vector`:
`if se in all_side_effects: feature_vector[all_side_effects.index(se)] = 1`.
Python's `list.index` returns the first occurrence, as does `List.indexOf`. -/
def markSlot (all_side_effects : List String) (v : List ℚ) (se : String) : List ℚ :=
  if se ∈ all_side_effects then v.set (all_side_effects.indexOf se) 1 else v

/-- `create_feature_vector`: a zero vector of vocabulary length where slot
`index(se)` is set to `1` for each `se` of the union of the two profiles that
occurs in the vocabulary.  The Python loop iterates `drug1_ses.union(drug2_ses)`,
a set with unspecified iteration order; `(drug1_ses ++ drug2_ses).dedup`
enumerates exactly that union, and the writes commute, so the order is
irrelevant. -/
def create_feature_vector (drug1_ses drug2_ses : List String)
    (all_side_effects : List String) : List ℚ :=
  ((drug1_ses ++ drug2_ses).dedup).foldl (markSlot all_side_effects)
    (List.replicate all_side_effects.length 0)

/-- Lines 70–71 of `app.py`:
`risk_score = len(common_ses) / (len(drug1_ses) + len(drug2_ses)) * 100`.
Python's `/` raises `ZeroDivisionError` on a zero denominator, hence `Option`. -/
def overlapRisk (drug1_ses drug2_ses : Finset String) : Option ℚ :=
  if drug1_ses.card + drug2_ses.card = 0 then none
  else some (((drug1_ses ∩ drug2_ses).card : ℚ)
      / ((drug1_ses.card : ℚ) + (drug2_ses.card : ℚ)) * 100)

/-- The Python exceptions that can escape the scoring run. -/
inductive RunError where
  | unknownDrug
  | divisionByZero
  | modelFailure
deriving DecidableEq

/-- The `for drug2 in other_drugs` accumulation: the first exception raised in
an iteration aborts the whole loop; otherwise the per-iteration records are
appended in enumeration order. -/
def exceptMapList {α β ε : Type} (f : α → Except ε β) : List α → Except ε (List β)
  | [] => .ok []
  | x :: xs =>
    match f x with
    | .error e => .error e
    | .ok y =>
      match exceptMapList f xs with
      | .error e => .error e
      | .ok ys => .ok (y :: ys)

/-- The comparison behind `sorted(combinations, key=lambda x: x['combined_score'])`. -/
def scoreLE (a b : Combo) : Prop :=
  a.combined_score ≤ b.combined_score

instance : DecidableRel scoreLE := fun a b =>
  inferInstanceAs (Decidable (a.combined_score ≤ b.combined_score))

instance : IsTotal Combo scoreLE :=
  ⟨fun a b => le_total a.combined_score b.combined_score⟩

instance : IsTrans Combo scoreLE :=
  ⟨fun _ _ _ h1 h2 => le_trans h1 h2⟩

/-- Line 56: `all_side_effects = side_effects_df['side_effect_name'].unique().tolist()`. -/
def allSideEffects (side_effects_df : List SERow) : List String :=
  pdUnique (side_effects_df.map SERow.side_effect_name)

/-- Line 61: `available_drugs = drug_names_df['drug_name'].unique().tolist()`. -/
def availableDrugs (drug_names_df : List NameRow) : List String :=
  pdUnique (drug_names_df.map NameRow.drug_name)

/-- Line 62: `other_drugs = [drug for drug in available_drugs if drug != drug1]`. -/
def otherDrugs (drug_names_df : List NameRow) (drug1 : String) : List String :=
  (availableDrugs drug_names_df).filter (fun d => d ≠ drug1)

/-- The body of the candidate loop (lines 66–90) for a single `drug2`:
resolve the candidate profile, compute overlap risk, invoke the model on the
pair's feature vector, normalise severity by the class count, and blend with
the fixed 0.6/0.4 weights. -/
def scoreCandidate (ses1 : List String) (all_side_effects : List String)
    (predict : List ℚ → Option ℚ) (classCount : ℕ)
    (side_effects_df : List SERow) (drug_names_df : List NameRow)
    (drug2 : String) : Except RunError Combo :=
  match get_drug_side_effects drug2 side_effects_df drug_names_df with
  | none => .error .unknownDrug
  | some ses2 =>
    let drug1_ses := ses1.toFinset
    let drug2_ses := ses2.toFinset
    match overlapRisk drug1_ses drug2_ses with
    | none => .error .divisionByZero
    | some risk_score =>
      let feature_vector := create_feature_vector ses1 ses2 all_side_effects
      match predict feature_vector with
      | none => .error .modelFailure
      | some prediction =>
        let severity_score := prediction / (classCount : ℚ) * 100
        .ok { drug := drug2
              risk_score := risk_score
              severity_score := severity_score
              combined_score := 0.6 * risk_score + 0.4 * severity_score
              common_side_effects := drug1_ses ∩ drug2_ses }

/-- Lines 54–90 of `predict_drug_combinations` before the final sort: the raw
`combinations` list in candidate enumeration order. -/
def rawCombinations (drug1 : String) (predict : List ℚ → Option ℚ) (classCount : ℕ)
    (side_effects_df : List SERow) (drug_names_df : List NameRow) :
    Except RunError (List Combo) :=
  match get_drug_side_effects drug1 side_effects_df drug_names_df with
  | none => .error .unknownDrug
  | some ses1 =>
    exceptMapList
      (scoreCandidate ses1 (allSideEffects side_effects_df)
        predict classCount side_effects_df drug_names_df)
      (otherDrugs drug_names_df drug1)

/-- `predict_drug_combinations`: the raw list sorted ascending by
`combined_score`.  Python's `sorted` is stable, and so is insertion sort with
this comparison; a stable ascending sort is extensionally unique, so the two
agree. -/
def predict_drug_combinations (drug1 : String) (predict : List ℚ → Option ℚ)
    (classCount : ℕ) (side_effects_df : List SERow) (drug_names_df : List NameRow) :
    Except RunError (List Combo) :=
  (rawCombinations drug1 predict classCount side_effects_df drug_names_df).map
    (List.insertionSort scoreLE)

deriving instance DecidableEq for Except

/-! Concrete test fixtures used to instantiate the theorems below. -/

/-- A small side-effects table: `DrugA ↦ {nausea, rash}`, `DrugB ↦ {nausea, fatigue}`. -/
def sedfW : List SERow :=
  [⟨"d1", "nausea"⟩, ⟨"d1", "rash"⟩, ⟨"d2", "nausea"⟩, ⟨"d2", "fatigue"⟩]

/-- The matching drug-names table. -/
def dndfW : List NameRow :=
  [⟨"d1", "DrugA"⟩, ⟨"d2", "DrugB"⟩]

/-- A stub severity model that always predicts raw class `1`. -/
def predictW : List ℚ → Option ℚ := fun _ => some 1

/-- The single record produced for anchor `DrugA` on the fixture: overlap risk
`1/(2+2)*100 = 25`, severity `1/2*100 = 50`, composite `0.6*25 + 0.4*50 = 35`. -/
def comboW : Combo :=
  ⟨"DrugB", 25, 50, 35, {"nausea"}⟩

/-- A names table in which two drugs (`d1`, `d2`) have no side-effect rows. -/
def dndfE : List NameRow :=
  [⟨"d1", "A"⟩, ⟨"d2", "B"⟩]

/-- Side-effects table for the model-failure fixture:
`A ↦ {nausea}`, `B ↦ {nausea}`, `C ↦ {rash}`. -/
def sedf6 : List SERow :=
  [⟨"d1", "nausea"⟩, ⟨"d2", "nausea"⟩, ⟨"d3", "rash"⟩]

/-- The matching drug-names table with anchor `A` and candidates `B`, `C`. -/
def dndf6 : List NameRow :=
  [⟨"d1", "A"⟩, ⟨"d2", "B"⟩, ⟨"d3", "C"⟩]

/-- A severity model that fails (returns a non-numeric result) exactly on the
feature vector `[1, 0]` of the pair `(A, B)` and succeeds on every other
vector. -/
def predict6 : List ℚ → Option ℚ :=
  fun v => if v = [1, 0] then none else some 1

/-! Helper lemmas about the embedded pipeline. -/

theorem exceptMapList_ok_mem {α β ε : Type} {f : α → Except ε β} :
    ∀ {l : List α} {out : List β}, exceptMapList f l = .ok out →
      ∀ y ∈ out, ∃ x ∈ l, f x = .ok y := by
  intro l
  induction l with
  | nil =>
    intro out h y hy
    simp only [exceptMapList] at h
    cases h
    cases hy
  | cons x xs ih =>
    intro out h y hy
    simp only [exceptMapList] at h
    cases hfx : f x with
    | error e => rw [hfx] at h; cases h
    | ok b =>
      rw [hfx] at h
      cases hrec : exceptMapList f xs with
      | error e => rw [hrec] at h; cases h
      | ok ys =>
        rw [hrec] at h
        cases h
        rcases List.mem_cons.mp hy with hyb | hyys
        · exact ⟨x, List.mem_cons_self x xs, by rw [hfx, hyb]⟩
        · obtain ⟨z, hz, hfz⟩ := ih hrec y hyys
          exact ⟨z, List.mem_cons_of_mem x hz, hfz⟩

theorem overlapRisk_ok {A B : Finset String} {r : ℚ} (h : overlapRisk A B = some r) :
    A.card + B.card ≠ 0 ∧
      r = ((A ∩ B).card : ℚ) / ((A.card : ℚ) + (B.card : ℚ)) * 100 := by
  by_cases hz : A.card + B.card = 0
  · rw [overlapRisk, if_pos hz] at h
    cases h
  · rw [overlapRisk, if_neg hz] at h
    exact ⟨hz, (Option.some.injEq _ _).mp h.symm⟩

theorem scoreCandidate_ok {ses1 : List String} {vocab : List String}
    {predict : List ℚ → Option ℚ} {classCount : ℕ}
    {sedf : List SERow} {dndf : List NameRow} {drug2 : String} {c : Combo}
    (h : scoreCandidate ses1 vocab predict classCount sedf dndf drug2 = .ok c) :
    ∃ ses2 prediction,
      get_drug_side_effects drug2 sedf dndf = some ses2 ∧
      overlapRisk ses1.toFinset ses2.toFinset = some c.risk_score ∧
      predict (create_feature_vector ses1 ses2 vocab) = some prediction ∧
      c.drug = drug2 ∧
      c.severity_score = prediction / (classCount : ℚ) * 100 ∧
      c.combined_score = 0.6 * c.risk_score + 0.4 * c.severity_score ∧
      c.common_side_effects = ses1.toFinset ∩ ses2.toFinset := by
  rw [scoreCandidate] at h
  cases hses : get_drug_side_effects drug2 sedf dndf with
  | none => rw [hses] at h; cases h
  | some ses2 =>
    rw [hses] at h
    simp only at h
    cases hrisk : overlapRisk ses1.toFinset ses2.toFinset with
    | none => rw [hrisk] at h; cases h
    | some risk =>
      rw [hrisk] at h
      simp only at h
      cases hpred : predict (create_feature_vector ses1 ses2 vocab) with
      | none => rw [hpred] at h; cases h
      | some p =>
        rw [hpred] at h
        simp only at h
        cases h
        exact ⟨ses2, p, rfl, hrisk, hpred, rfl, rfl, rfl, rfl⟩

theorem predict_ok_parts {drug1 : String} {predict : List ℚ → Option ℚ} {classCount : ℕ}
    {sedf : List SERow} {dndf : List NameRow} {results : List Combo}
    (h : predict_drug_combinations drug1 predict classCount sedf dndf = .ok results) :
    ∃ ses1 pre,
      get_drug_side_effects drug1 sedf dndf = some ses1 ∧
      exceptMapList
        (scoreCandidate ses1 (allSideEffects sedf) predict classCount sedf dndf)
        (otherDrugs dndf drug1) = .ok pre ∧
      rawCombinations drug1 predict classCount sedf dndf = .ok pre ∧
      results = List.insertionSort scoreLE pre := by
  rw [predict_drug_combinations] at h
  cases hraw : rawCombinations drug1 predict classCount sedf dndf with
  | error e => rw [hraw] at h; cases h
  | ok pre =>
    rw [hraw] at h
    simp only [Except.map] at h
    cases h
    rw [rawCombinations] at hraw
    cases hses : get_drug_side_effects drug1 sedf dndf with
    | none => rw [hses] at hraw; cases hraw
    | some ses1 =>
      rw [hses] at hraw
      exact ⟨ses1, pre, rfl, hraw, rfl, rfl⟩

theorem mem_results {drug1 : String} {predict : List ℚ → Option ℚ} {classCount : ℕ}
    {sedf : List SERow} {dndf : List NameRow} {results : List Combo} {r : Combo}
    (h : predict_drug_combinations drug1 predict classCount sedf dndf = .ok results)
    (hr : r ∈ results) :
    ∃ ses1 drug2,
      get_drug_side_effects drug1 sedf dndf = some ses1 ∧
      drug2 ∈ otherDrugs dndf drug1 ∧
      scoreCandidate ses1 (allSideEffects sedf) predict classCount sedf dndf
        drug2 = .ok r := by
  obtain ⟨ses1, pre, hses, hmap, -, hsort⟩ := predict_ok_parts h
  rw [hsort] at hr
  obtain ⟨drug2, hd2, hok⟩ :=
    exceptMapList_ok_mem hmap r ((List.mem_insertionSort scoreLE).mp hr)
  exact ⟨ses1, drug2, hses, hd2, hok⟩

/-! Evaluation of the pipeline on the fixtures. -/

theorem sesA_eq : get_drug_side_effects "DrugA" sedfW dndfW = some ["nausea", "rash"] := by
  simp [get_drug_side_effects, sedfW, dndfW, List.filter]

theorem sesB_eq : get_drug_side_effects "DrugB" sedfW dndfW = some ["nausea", "fatigue"] := by
  simp [get_drug_side_effects, sedfW, dndfW, List.filter]

theorem otherW_eq : otherDrugs dndfW "DrugA" = ["DrugB"] := by
  simp [otherDrugs, availableDrugs, pdUnique, dndfW, List.filter]

theorem riskW_eq :
    overlapRisk (["nausea", "rash"].toFinset) (["nausea", "fatigue"].toFinset) =
      some 25 := by
  rw [overlapRisk]
  rw [show ((["nausea", "rash"].toFinset : Finset String)).card = 2 from rfl]
  rw [show ((["nausea", "fatigue"].toFinset : Finset String)).card = 2 from rfl]
  rw [show ((["nausea", "rash"].toFinset : Finset String) ∩
      ["nausea", "fatigue"].toFinset).card = 1 from rfl]
  norm_num

theorem scoreW_eq :
    scoreCandidate ["nausea", "rash"] (allSideEffects sedfW)
      predictW 2 sedfW dndfW "DrugB" = .ok comboW := by
  rw [scoreCandidate, sesB_eq]
  simp only [riskW_eq, predictW]
  rw [show ((["nausea", "rash"].toFinset : Finset String) ∩
      ["nausea", "fatigue"].toFinset) = {"nausea"} from by decide]
  simp only [comboW]
  norm_num

theorem runW_eq :
    predict_drug_combinations "DrugA" predictW 2 sedfW dndfW = .ok [comboW] := by
  rw [predict_drug_combinations, rawCombinations, sesA_eq]
  simp only [otherW_eq, exceptMapList]
  rw [scoreW_eq]
  simp [Except.map, List.insertionSort]

/-! Stability of the final sort: filtering any composite-score level set
commutes with `insertionSort scoreLE`. -/

theorem filter_orderedInsert_score (t : ℚ) (c : Combo) :
    ∀ l : List Combo,
      (List.orderedInsert scoreLE c l).filter (fun x => x.combined_score = t) =
        (c :: l).filter (fun x => x.combined_score = t) := by
  intro l
  induction l with
  | nil => rfl
  | cons b bs ih =>
    rw [List.orderedInsert]
    by_cases hcb : scoreLE c b
    · rw [if_pos hcb]
    · rw [if_neg hcb]
      have hlt : b.combined_score < c.combined_score := lt_of_not_le hcb
      by_cases hb : b.combined_score = t
      · have hc : ¬ c.combined_score = t := by
          intro hc
          rw [hb] at hlt
          rw [hc] at hlt
          exact lt_irrefl t hlt
        simp [List.filter_cons, hb, hc, ih]
      · simp [List.filter_cons, hb, ih]

theorem filter_insertionSort_score (t : ℚ) :
    ∀ l : List Combo,
      (List.insertionSort scoreLE l).filter (fun x => x.combined_score = t) =
        l.filter (fun x => x.combined_score = t) := by
  intro l
  induction l with
  | nil => rfl
  | cons c cs ih =>
    rw [List.insertionSort, filter_orderedInsert_score, List.filter_cons,
      List.filter_cons, ih]

/-! Characterisation of `create_feature_vector`. -/

theorem foldl_markSlot_length (vocab : List String) :
    ∀ (l : List String) (v : List ℚ),
      (l.foldl (markSlot vocab) v).length = v.length := by
  intro l
  induction l with
  | nil => intro v; rfl
  | cons se ses ih =>
    intro v
    rw [List.foldl_cons, ih, markSlot]
    by_cases h : se ∈ vocab
    · rw [if_pos h, List.length_set]
    · rw [if_neg h]

theorem foldl_markSlot_getElem (vocab : List String) :
    ∀ (l : List String) (v : List ℚ), v.length = vocab.length → ∀ i : ℕ,
      (l.foldl (markSlot vocab) v)[i]? =
        if ∃ se ∈ l, se ∈ vocab ∧ vocab.indexOf se = i then some 1 else v[i]? := by
  intro l
  induction l with
  | nil =>
    intro v _ i
    rw [List.foldl_nil, if_neg]
    simp
  | cons se ses ih =>
    intro v hv i
    have hlen : (markSlot vocab v se).length = vocab.length := by
      rw [markSlot]
      by_cases h : se ∈ vocab
      · rw [if_pos h, List.length_set, hv]
      · rw [if_neg h, hv]
    rw [List.foldl_cons, ih (markSlot vocab v se) hlen i]
    by_cases h1 : ∃ x ∈ ses, x ∈ vocab ∧ vocab.indexOf x = i
    · rw [if_pos h1, if_pos]
      obtain ⟨x, hx, hxv⟩ := h1
      exact ⟨x, List.mem_cons_of_mem se hx, hxv⟩
    · rw [if_neg h1]
      by_cases h2 : se ∈ vocab ∧ vocab.indexOf se = i
      · rw [if_pos ⟨se, List.mem_cons_self se ses, h2⟩, markSlot, if_pos h2.1, ← h2.2]
        exact List.getElem?_set_eq_of_lt 1
          (by rw [hv]; exact List.indexOf_lt_length.mpr h2.1)
      · have hmark : (markSlot vocab v se)[i]? = v[i]? := by
          rw [markSlot]
          by_cases h3 : se ∈ vocab
          · rw [if_pos h3]
            exact List.getElem?_set_ne (fun he => h2 ⟨h3, he⟩)
          · rw [if_neg h3]
        rw [hmark, if_neg]
        rintro ⟨x, hx, hxv⟩
        rcases List.mem_cons.mp hx with hxe | hxs
        · exact h2 (hxe ▸ hxv)
        · exact h1 ⟨x, hxs, hxv⟩

theorem create_feature_vector_length (A B : List String) (vocab : List String) :
    (create_feature_vector A B vocab).length = vocab.length := by
  rw [create_feature_vector, foldl_markSlot_length, List.length_replicate]

theorem create_feature_vector_getElem (A B : List String) (vocab : List String)
    (hnd : vocab.Nodup) (i : ℕ) (hi : i < vocab.length) :
    (create_feature_vector A B vocab)[i]? =
      some (if vocab[i] ∈ A ∨ vocab[i] ∈ B then (1 : ℚ) else 0) := by
  rw [create_feature_vector,
    foldl_markSlot_getElem vocab _ _ (List.length_replicate _ _) i]
  by_cases hm : vocab[i] ∈ A ∨ vocab[i] ∈ B
  · rw [if_pos, if_pos hm]
    exact ⟨vocab[i], List.mem_dedup.mpr (List.mem_append.mpr hm), List.getElem_mem hi,
      List.indexOf_getElem hnd i hi⟩
  · rw [if_neg, if_neg hm, List.getElem?_replicate_of_lt hi]
    rintro ⟨x, hx, hxv, hidx⟩
    have h4 : vocab[i]? = some x := by
      rw [← hidx]
      exact List.getElem?_indexOf hxv
    rw [List.getElem?_eq_getElem hi] at h4
    have h5 : vocab[i] = x := Option.some.inj h4
    apply hm
    rw [h5]
    exact List.mem_append.mp (List.mem_dedup.mp hx)

/-! Claim theorems. -/

/-- C1: for every record of a successful ranking run (hence a pair whose
profiles are not both empty), the overlap risk equals
`|anchorEvents ∩ candidateEvents| / (|anchorEvents| + |candidateEvents|) * 100`,
and in particular it is `0` when the two side-effect sets are disjoint. -/
theorem overlap_risk_formula_for_results
    (drug1 : String) (predict : List ℚ → Option ℚ) (classCount : ℕ)
    (sedf : List SERow) (dndf : List NameRow) (results : List Combo) (r : Combo)
    (hrun : predict_drug_combinations drug1 predict classCount sedf dndf = .ok results)
    (hr : r ∈ results) :
    ∃ ses1 ses2,
      get_drug_side_effects drug1 sedf dndf = some ses1 ∧
      get_drug_side_effects r.drug sedf dndf = some ses2 ∧
      r.risk_score = ((ses1.toFinset ∩ ses2.toFinset).card : ℚ)
          / ((ses1.toFinset.card : ℚ) + (ses2.toFinset.card : ℚ)) * 100 ∧
      (ses1.toFinset ∩ ses2.toFinset = ∅ → r.risk_score = 0) := by
  obtain ⟨ses1, drug2, hses1, hd2, hok⟩ := mem_results hrun hr
  obtain ⟨ses2, p, hses2, hrisk, hpred, hdrug, hsev, hcomb, hcommon⟩ := scoreCandidate_ok hok
  obtain ⟨hnz, hform⟩ := overlapRisk_ok hrisk
  refine ⟨ses1, ses2, hses1, ?_, hform, ?_⟩
  · rw [hdrug]
    exact hses2
  · intro hdisj
    rw [hform, hdisj]
    simp

/-- C1 witness: on the fixture run for `DrugA`, the single result (`DrugB`)
satisfies the overlap-risk formula: `1/(2+2)*100 = 25`. -/
theorem overlap_risk_formula_for_results_instance :
    ∃ ses1 ses2,
      get_drug_side_effects "DrugA" sedfW dndfW = some ses1 ∧
      get_drug_side_effects comboW.drug sedfW dndfW = some ses2 ∧
      comboW.risk_score = ((ses1.toFinset ∩ ses2.toFinset).card : ℚ)
          / ((ses1.toFinset.card : ℚ) + (ses2.toFinset.card : ℚ)) * 100 ∧
      (ses1.toFinset ∩ ses2.toFinset = ∅ → comboW.risk_score = 0) :=
  overlap_risk_formula_for_results "DrugA" predictW 2 sedfW dndfW [comboW] comboW
    runW_eq (List.mem_singleton.mpr rfl)

/-- C2: every record of a successful ranking run has
`composite = 0.6 * overlapRisk + 0.4 * severity`, where the severity score is
the model's raw prediction on the pair's feature vector divided by the class
count, times 100. -/
theorem composite_score_weights
    (drug1 : String) (predict : List ℚ → Option ℚ) (classCount : ℕ)
    (sedf : List SERow) (dndf : List NameRow) (results : List Combo) (r : Combo)
    (hrun : predict_drug_combinations drug1 predict classCount sedf dndf = .ok results)
    (hr : r ∈ results) :
    r.combined_score = 0.6 * r.risk_score + 0.4 * r.severity_score ∧
    ∃ ses1 ses2 prediction,
      get_drug_side_effects drug1 sedf dndf = some ses1 ∧
      get_drug_side_effects r.drug sedf dndf = some ses2 ∧
      predict (create_feature_vector ses1 ses2
        (allSideEffects sedf)) = some prediction ∧
      r.severity_score = prediction / (classCount : ℚ) * 100 := by
  obtain ⟨ses1, drug2, hses1, hd2, hok⟩ := mem_results hrun hr
  obtain ⟨ses2, p, hses2, hrisk, hpred, hdrug, hsev, hcomb, hcommon⟩ := scoreCandidate_ok hok
  refine ⟨hcomb, ses1, ses2, p, hses1, ?_, hpred, hsev⟩
  rw [hdrug]
  exact hses2

/-- C2 witness: on the fixture run, the `DrugB` record has severity
`1/2*100 = 50` and composite `0.6*25 + 0.4*50 = 35`. -/
theorem composite_score_weights_instance :
    comboW.combined_score = 0.6 * comboW.risk_score + 0.4 * comboW.severity_score ∧
    ∃ ses1 ses2 prediction,
      get_drug_side_effects "DrugA" sedfW dndfW = some ses1 ∧
      get_drug_side_effects comboW.drug sedfW dndfW = some ses2 ∧
      predictW (create_feature_vector ses1 ses2
        (allSideEffects sedfW)) = some prediction ∧
      comboW.severity_score = prediction / (2 : ℕ) * 100 :=
  composite_score_weights "DrugA" predictW 2 sedfW dndfW [comboW] comboW
    runW_eq (List.mem_singleton.mpr rfl)

/-- C3: the sequence returned by a successful ranking run is sorted in
non-decreasing order of composite score, and the sort is stable: filtering any
composite-score level set yields the same sequence as filtering the raw list
in candidate enumeration order. -/
theorem results_sorted_and_stable
    (drug1 : String) (predict : List ℚ → Option ℚ) (classCount : ℕ)
    (sedf : List SERow) (dndf : List NameRow) (results : List Combo)
    (hrun : predict_drug_combinations drug1 predict classCount sedf dndf = .ok results) :
    List.Pairwise (fun a b : Combo => a.combined_score ≤ b.combined_score) results ∧
    ∃ pre, rawCombinations drug1 predict classCount sedf dndf = .ok pre ∧
      ∀ t : ℚ, results.filter (fun c => c.combined_score = t) =
        pre.filter (fun c => c.combined_score = t) := by
  obtain ⟨ses1, pre, hses, hmap, hraw, hsort⟩ := predict_ok_parts hrun
  constructor
  · rw [hsort]
    exact List.sorted_insertionSort scoreLE pre
  · exact ⟨pre, hraw, fun t => by rw [hsort]; exact filter_insertionSort_score t pre⟩

/-- C3 witness: the fixture run's output is sorted and agrees with the raw
enumeration on every composite level set. -/
theorem results_sorted_and_stable_instance :
    List.Pairwise (fun a b : Combo => a.combined_score ≤ b.combined_score) [comboW] ∧
    ∃ pre, rawCombinations "DrugA" predictW 2 sedfW dndfW = .ok pre ∧
      ∀ t : ℚ, ([comboW] : List Combo).filter (fun c => c.combined_score = t) =
        pre.filter (fun c => c.combined_score = t) :=
  results_sorted_and_stable "DrugA" predictW 2 sedfW dndfW [comboW] runW_eq

/-- C7: the anchor never appears among its own results, and the candidate list
is exactly the known drugs whose name differs (case-sensitively) from the
anchor's. -/
theorem anchor_never_candidate
    (drug1 : String) (predict : List ℚ → Option ℚ) (classCount : ℕ)
    (sedf : List SERow) (dndf : List NameRow) (results : List Combo)
    (hrun : predict_drug_combinations drug1 predict classCount sedf dndf = .ok results) :
    (∀ r ∈ results, r.drug ≠ drug1) ∧
    (∀ d, d ∈ otherDrugs dndf drug1 ↔ d ∈ availableDrugs dndf ∧ d ≠ drug1) := by
  constructor
  · intro r hr
    obtain ⟨ses1, drug2, hses1, hd2, hok⟩ := mem_results hrun hr
    obtain ⟨ses2, p, hses2, hrisk, hpred, hdrug, -⟩ := scoreCandidate_ok hok
    rw [hdrug]
    have hmem := List.mem_filter.mp hd2
    simpa using hmem.2
  · intro d
    rw [otherDrugs, List.mem_filter]
    simp

/-- C7 witness: on the fixture run for `DrugA`, the result `DrugB` differs
from the anchor and the candidate set is characterised by exact exclusion. -/
theorem anchor_never_candidate_instance :
    (∀ r ∈ ([comboW] : List Combo), r.drug ≠ "DrugA") ∧
    (∀ d, d ∈ otherDrugs dndfW "DrugA" ↔ d ∈ availableDrugs dndfW ∧ d ≠ "DrugA") :=
  anchor_never_candidate "DrugA" predictW 2 sedfW dndfW [comboW] runW_eq

/-- C5 counterexample: for the singleton profile `{nausea}`, the overlap-risk
computation on the identical pair gives `1/(1+1)*100 = 50`, not `100` as the
claim states. -/
theorem self_overlap_not_hundred :
    overlapRisk {"nausea"} {"nausea"} = some 50 ∧
    overlapRisk {"nausea"} {"nausea"} ≠ some 100 := by
  have h : overlapRisk ({"nausea"} : Finset String) {"nausea"} = some 50 := by
    rw [overlapRisk]
    rw [show (({"nausea"} : Finset String)).card = 1 from rfl]
    rw [show (({"nausea"} : Finset String) ∩ {"nausea"}).card = 1 from rfl]
    norm_num
  refine ⟨h, ?_⟩
  rw [h]
  intro hc
  exact absurd (Option.some.inj hc) (by norm_num)

/-- C5 (amended): for every drug with a non-empty side-effect profile, the
overlap-risk computation on the pair `(A, A)` yields `50`, since
`|A|/(|A|+|A|)*100 = 50`. -/
theorem self_overlap_is_fifty (A : Finset String) (h : A.Nonempty) :
    overlapRisk A A = some 50 := by
  have hc : A.card ≠ 0 := Nat.pos_iff_ne_zero.mp (Finset.card_pos.mpr h)
  rw [overlapRisk, if_neg (by omega), Finset.inter_self]
  have hq : (A.card : ℚ) ≠ 0 := Nat.cast_ne_zero.mpr hc
  have hs : (A.card : ℚ) + (A.card : ℚ) ≠ 0 := by
    intro hz
    apply hq
    have : (0 : ℚ) ≤ (A.card : ℚ) := Nat.cast_nonneg _
    linarith
  congr 1
  field_simp
  ring

/-- C5 witness: the amended statement at the concrete non-empty profile
`{nausea}`. -/
theorem self_overlap_is_fifty_instance :
    (({"nausea"} : Finset String)).Nonempty ∧
      overlapRisk {"nausea"} {"nausea"} = some 50 :=
  ⟨by decide, self_overlap_is_fifty {"nausea"} (by decide)⟩

/-- C10: whenever at least one of the two profiles is non-empty, the overlap
risk is defined and is at most `50`, because the intersection size is bounded
by each profile size and hence by half the denominator. -/
theorem overlap_risk_le_fifty (A B : Finset String) (h : 0 < A.card + B.card) :
    ∃ r : ℚ, overlapRisk A B = some r ∧ r ≤ 50 := by
  rw [overlapRisk, if_neg (Nat.pos_iff_ne_zero.mp h)]
  refine ⟨_, rfl, ?_⟩
  have h1 : (A ∩ B).card ≤ A.card := Finset.card_le_card Finset.inter_subset_left
  have h2 : (A ∩ B).card ≤ B.card := Finset.card_le_card Finset.inter_subset_right
  have hpos : (0 : ℚ) < (A.card : ℚ) + (B.card : ℚ) := by exact_mod_cast h
  rw [div_mul_eq_mul_div, div_le_iff₀ hpos]
  have hcast : ((A ∩ B).card : ℚ) + ((A ∩ B).card : ℚ) ≤ (A.card : ℚ) + (B.card : ℚ) := by
    exact_mod_cast Nat.add_le_add h1 h2
  linarith

/-- C10 witness: for `A = {nausea}`, `B = ∅` the risk is defined and at most
`50`. -/
theorem overlap_risk_le_fifty_instance :
    0 < ({"nausea"} : Finset String).card + (∅ : Finset String).card ∧
      ∃ r : ℚ, overlapRisk {"nausea"} ∅ = some r ∧ r ≤ 50 :=
  ⟨by decide, overlap_risk_le_fifty {"nausea"} ∅ (by decide)⟩

/-- C8: looking up a drug name with no matching record signals the error
(`none`, the Python `IndexError` surfaced as `UnknownDrug`), and when several
records match the name, the first matching record's id is the one used. -/
theorem unknown_drug_and_first_match :
    (∀ (d : String) (sedf : List SERow) (dndf : List NameRow),
        (∀ row ∈ dndf, row.drug_name ≠ d) →
        get_drug_side_effects d sedf dndf = none) ∧
    (∀ (d : String) (sedf : List SERow) (l1 : List NameRow) (row : NameRow)
        (l2 : List NameRow), row.drug_name = d → (∀ p ∈ l1, p.drug_name ≠ d) →
        get_drug_side_effects d sedf (l1 ++ row :: l2) =
          some ((sedf.filter (fun s => s.drug_id = row.drug_id)).map
            SERow.side_effect_name)) := by
  constructor
  · intro d sedf dndf hnone
    rw [get_drug_side_effects]
    have hfil : dndf.filter (fun r => r.drug_name = d) = [] := by
      rw [List.filter_eq_nil_iff]
      intro row hrow
      simpa using hnone row hrow
    rw [hfil]
    rfl
  · intro d sedf l1 row l2 hrow hl1
    have hfil : (l1 ++ row :: l2).filter (fun r => r.drug_name = d) =
        row :: l2.filter (fun r => r.drug_name = d) := by
      rw [List.filter_append]
      have h1 : l1.filter (fun r => r.drug_name = d) = [] := by
        rw [List.filter_eq_nil_iff]
        intro p hp
        simpa using hl1 p hp
      rw [h1, List.nil_append, List.filter_cons, if_pos (by simpa using hrow)]
    rw [get_drug_side_effects, hfil]
    rfl

/-- C8 witness: `Nonexistent` has no record and fails; a duplicated name
`DrugA` resolves to the first matching record (`d1`). -/
theorem unknown_drug_and_first_match_instance :
    get_drug_side_effects "Nonexistent" sedfW dndfW = none ∧
    get_drug_side_effects "DrugA" sedfW
        ([⟨"d9", "DrugX"⟩] ++ (⟨"d1", "DrugA"⟩ : NameRow) :: [⟨"d2", "DrugA"⟩]) =
      some ((sedfW.filter
        (fun s => s.drug_id = (⟨"d1", "DrugA"⟩ : NameRow).drug_id)).map
        SERow.side_effect_name) :=
  ⟨unknown_drug_and_first_match.1 "Nonexistent" sedfW dndfW (by decide),
   unknown_drug_and_first_match.2 "DrugA" sedfW [⟨"d9", "DrugX"⟩] ⟨"d1", "DrugA"⟩
     [⟨"d2", "DrugA"⟩] rfl (by decide)⟩

/-- C9 counterexample: with the duplicated vocabulary `["x", "x"]` and profiles
`A = {x}`, `B = ∅`, the event `x` is in the union, yet slot `1` — whose
corresponding vocabulary event is `x` — holds `0`, because only the first
occurrence index is ever written. -/
theorem feature_vector_duplicate_slot_cex :
    (create_feature_vector ["x"] [] ["x", "x"]).length =
      (["x", "x"] : List String).length ∧
    (("x" : String) ∈ (["x"] : List String) ∨ ("x" : String) ∈ ([] : List String)) ∧
    (create_feature_vector ["x"] [] ["x", "x"])[1]? ≠ some (1 : ℚ) := by
  decide

/-- C9 (amended): for every pair of side-effect sets and every
duplicate-free vocabulary, the feature vector has length exactly the
vocabulary size, and slot `i` holds `1` if vocabulary event `i` lies in the
union of the two sets and `0` otherwise; union events absent from the
vocabulary are ignored without error. -/
theorem feature_vector_length_and_slots (A B : List String) (vocab : List String)
    (hnd : vocab.Nodup) :
    (create_feature_vector A B vocab).length = vocab.length ∧
    ∀ i : ℕ, ∀ hi : i < vocab.length,
      (create_feature_vector A B vocab)[i]? =
        some (if vocab[i] ∈ A ∨ vocab[i] ∈ B then (1 : ℚ) else 0) :=
  ⟨create_feature_vector_length A B vocab,
   fun i hi => create_feature_vector_getElem A B vocab hnd i hi⟩

/-- C9 witness: the amended statement at `A = {x}`, `B = {z}` and the
duplicate-free vocabulary `["x", "y"]` (so `z` is silently ignored). -/
theorem feature_vector_length_and_slots_instance :
    (create_feature_vector ["x"] ["z"] ["x", "y"]).length =
      (["x", "y"] : List String).length ∧
    ∀ i : ℕ, ∀ hi : i < (["x", "y"] : List String).length,
      (create_feature_vector ["x"] ["z"] ["x", "y"])[i]? =
        some (if (["x", "y"] : List String)[i] ∈ (["x"] : List String) ∨
            (["x", "y"] : List String)[i] ∈ (["z"] : List String)
          then (1 : ℚ) else 0) :=
  feature_vector_length_and_slots ["x"] ["z"] ["x", "y"] (by decide)

/-- C4: on a pair of drugs that both have empty side-effect profiles, the code
divides by `len(drug1_ses) + len(drug2_ses) = 0` and the whole ranking run
aborts with the arithmetic fault, instead of scoring the pair `0`. -/
theorem empty_profiles_division_fault :
    predict_drug_combinations "A" (fun _ => some 1) 2 [] dndfE =
      .error .divisionByZero := by
  decide

/-- C6: a model failure on the first candidate's feature vector aborts the
entire ranking run — no result list is produced — even though the model
succeeds on the other candidate's vector. -/
theorem model_failure_aborts_whole_run :
    predict_drug_combinations "A" predict6 2 sedf6 dndf6 = .error .modelFailure ∧
    predict6 (create_feature_vector ["nausea"] ["rash"]
      (allSideEffects sedf6)) = some 1 := by
  decide
